import Mathlib

/-!
Verification of the q2cli command layer (`q2cli/commands.py`): the
RootCommand raw-token validation, the plugin lookup memoization, the
PluginCommand action dispatch, and the ActionCommand invocation protocol
(fallback resolution of inputs, parameters and outputs, the verbose/quiet
conflict, log-file lifecycle and result saving).

Definitions are shallow embeddings of the Python source.  Behaviour of the
handler module (`q2cli.handlers`), which is not among the sources, is
modelled from the specification and marked as such in each doc comment.
-/

namespace Q2cli

/-! ## RootCommand raw-token validation (`RootCommand.__init__`) -/

/-- The disallowed non-ASCII punctuation characters scanned for in
`RootCommand.__init__`: left/right smart single quotes, left/right smart
double quotes, and the em-dash. -/
def unicodes : List Char := ['‘', '’', '“', '”', '—']

/-- A raw token contains a disallowed character
(`any(x in command for x in unicodes)`). -/
def hasInvalidChar (tok : List Char) : Bool :=
  unicodes.any (fun u => tok.contains u)

/-- The literal head of the legacy-option regular expression
`--m-(\S+)-category`. -/
def categoryPfx : List Char := ['-', '-', 'm', '-']

/-- The literal tail of the legacy-option regular expression
`--m-(\S+)-category`. -/
def categorySfx : List Char := ['-', 'c', 'a', 't', 'e', 'g', 'o', 'r', 'y']

/-- Python whitespace, as rejected by `\S` in the legacy-option regular
expression: a str pattern in default Unicode mode, so `\s` holds the six
ASCII whitespace characters, the information separators U+001C..U+001F,
next line U+0085, no-break space U+00A0, ogham space U+1680, the en/em
family U+2000..U+200A, the line and paragraph separators U+2028 and
U+2029, narrow no-break space U+202F, medium mathematical space U+205F,
and ideographic space U+3000. -/
def isPySpace (c : Char) : Bool :=
  c = ' ' || c = '\t' || c = '\n' || c = '\r' || c = '\x0b' || c = '\x0c' ||
  c = '\x1c' || c = '\x1d' || c = '\x1e' || c = '\x1f' ||
  c = '\u0085' || c = '\u00A0' || c = '\u1680' ||
  c = '\u2000' || c = '\u2001' || c = '\u2002' || c = '\u2003' ||
  c = '\u2004' || c = '\u2005' || c = '\u2006' || c = '\u2007' ||
  c = '\u2008' || c = '\u2009' || c = '\u200A' ||
  c = '\u2028' || c = '\u2029' || c = '\u202F' || c = '\u205F' ||
  c = '\u3000'

/-- Full-match semantics of `re.fullmatch(r'--m-(\S+)-category', tok)`:
succeeds exactly when the whole token decomposes as `--m-` ++ field ++
`-category` with a nonempty, whitespace-free field, returning the captured
field. -/
def category_fullmatch (tok : List Char) : Option (List Char) :=
  if 14 ≤ tok.length ∧ tok.take 4 = categoryPfx ∧
      tok.drop (tok.length - 9) = categorySfx then
    if ((tok.drop 4).take (tok.length - 13)).all (fun c => !isPySpace c) then
      some ((tok.drop 4).take (tok.length - 13))
    else none
  else none

/-- The replacement option name suggested for a legacy match:
`'--m-%s-column' % param_name`. -/
def columnSuggestion (field : List Char) : List Char :=
  ['-', '-', 'm', '-'] ++ field ++ ['-', 'c', 'o', 'l', 'u', 'm', 'n']

/-- Outcome of `RootCommand.__init__`: either `sys.exit(-1)` carrying every
offending token (invalid-character tokens, and legacy tokens paired with
their suggested replacement), or normal construction proceeding to the
parsing framework (`super().__init__`). -/
inductive RootInit where
  | exitNeg (invalid : List (List Char)) (categories : List (List Char × List Char))
  | proceed
deriving DecidableEq

/-- The scan in `RootCommand.__init__` over the raw argument vector: collect
every token with a disallowed character and every legacy
`--m-<field>-category` token (with its suggested `--m-<field>-column`
spelling); if either list is nonempty, report both lists and exit with
status -1 before any option parsing. -/
def root_init (argv : List (List Char)) : RootInit :=
  let invalid := argv.filter hasInvalidChar
  let categories := argv.filterMap
    (fun tok => (category_fullmatch tok).map (fun f => (tok, columnSuggestion f)))
  if invalid ≠ [] ∨ categories ≠ [] then
    RootInit.exitNeg invalid categories
  else
    RootInit.proceed

/-- The process exit status produced by `RootCommand.__init__`: `some (-1)`
when the scan aborts, `none` when construction proceeds normally. -/
def rootInitExitCode : RootInit → Option Int
  | RootInit.exitNeg _ _ => some (-1)
  | RootInit.proceed => none

/-! ## Plugin registry data model and dispatch -/

/-- Kind of a signature entry (`item['type']`). -/
inductive EntryType where
  | input
  | param
  | output
deriving DecidableEq

/-- One signature entry of an action: a `name` unique within the action and
a `type` among input, parameter and output. -/
structure SigEntry where
  name : String
  type : EntryType
deriving DecidableEq

/-- Cached metadata of one action: its `id`, human-readable `name` and
`description`, and the ordered `signature`. -/
structure ActionInfo where
  id : String
  name : String
  description : String
  signature : List SigEntry
deriving DecidableEq

/-- Cached metadata of one plugin: its `name` and the mapping from action id
to action (`plugin['actions']`), ordered. -/
structure PluginInfo where
  name : String
  actions : List (String × ActionInfo)
deriving DecidableEq

/-- Modelled from the spec: `q2cli.util.to_cli_name` is not among the
sources; the spec describes it as normalization to the CLI name, lowercase
with word separators normalized to dashes. -/
def to_cli_name (s : String) : String :=
  String.mk (s.data.map (fun c => if c = '_' then '-' else c.toLower))

/-- The process-wide cached plugin snapshot: plugin name to plugin
metadata, ordered. -/
abbrev Plugins := List (String × PluginInfo)

/-- Mutable state of a `RootCommand`: `self._plugins`, `none` until the
first lookup reads the cache or a caller injects a snapshot. -/
structure RootState where
  plugins : Option Plugins
deriving DecidableEq

/-- The name map built on each access of `RootCommand._plugin_lookup`: every
plugin with a nonempty action table, keyed by its normalized CLI name. -/
def name_map (ps : Plugins) : List (String × PluginInfo) :=
  ps.filterMap (fun np => if np.2.actions ≠ [] then
    some (to_cli_name np.1, np.2) else none)

/-- One access of `RootCommand._plugin_lookup`: when `self._plugins` is
still unset, read the process-wide cache into it; then build the name map
from the in-memory snapshot.  Returns the name map, the new state, and
whether the cache was read on this access. -/
def plugin_lookup (cache : Plugins) (st : RootState) :
    List (String × PluginInfo) × RootState × Bool :=
  match st.plugins with
  | none => (name_map cache, ⟨some cache⟩, true)
  | some ps => (name_map ps, st, false)

/-- Runs `n` consecutive accesses of `RootCommand._plugin_lookup` within one run:
returns the final state and the total number of cache reads. -/
def run_lookups (cache : Plugins) : Nat → RootState → RootState × Nat
  | 0, st => (st, 0)
  | n + 1, st =>
    let step := plugin_lookup cache st
    let rest := run_lookups cache n step.2.1
    (rest.1, (if step.2.2 then 1 else 0) + rest.2)

/-- The action lookup table of a `PluginCommand`: action metadata keyed by
the normalized CLI name of the action id. -/
def action_lookup (p : PluginInfo) : List (String × ActionInfo) :=
  p.actions.map (fun ia => (to_cli_name ia.1, ia.2))

/-- Outcome of `PluginCommand.get_command`: a freshly constructed
`ActionCommand(name, plugin, action)`, or an error naming the plugin and
the attempted action followed by `ctx.exit(2)`. -/
inductive PluginGetCommand where
  | actionCmd (name : String) (plugin : PluginInfo) (action : ActionInfo)
  | exitTwo (pluginName : String) (actionName : String)
deriving DecidableEq

/-- Dispatch of `PluginCommand.get_command`: look the requested name up in the action
table; on a miss, echo an error naming the plugin and the action and exit
with status 2; on a hit, construct a fresh `ActionCommand`. -/
def plugin_get_command (p : PluginInfo) (nm : String) : PluginGetCommand :=
  match (action_lookup p).lookup nm with
  | some action => PluginGetCommand.actionCmd nm p action
  | none => PluginGetCommand.exitTwo p.name nm

/-- The process exit status produced by `PluginCommand.get_command`:
`some 2` on an unknown action, `none` when a command is returned. -/
def pluginGetExitCode : PluginGetCommand → Option Int
  | PluginGetCommand.actionCmd _ _ _ => none
  | PluginGetCommand.exitTwo _ _ => some 2

/-! ## Handlers and fallback resolution -/

/-- A fallback provider: a unary function from a canonical option name to a
value, or absence (`ValueNotFoundException` becomes `none`). -/
abbrev Fallback := String → Option String

/-- Behaviour of one generated handler at a fixed invocation (the parsed
flag mapping is baked in): `resolve` yields the value for a given fallback
provider, or `none` for `ValueNotFoundException`; `missing` is the list of
canonical option names the handler records when resolution fails. -/
structure HandlerBehavior where
  resolve : Fallback → Option String
  missing : List String

/-- Modelled from the spec: the handler-resolution protocol of
`q2cli.handlers` (not among the sources) — (a) the explicit command-line
value when present, (b) else the fallback invoked with the handler's
canonical option name, (c) else absence. -/
def spec_handler_resolve (explicit : Option String) (nm : String)
    (fb : Fallback) : Option String :=
  match explicit with
  | some v => some v
  | none => fb nm

/-- Modelled from the spec: interpretation of a config-supplied value for a
boolean flag (Python truthiness of the string). -/
def valueTruthy (v : String) : Bool := v ≠ ""

/-- Modelled from the spec: `VerboseHandler` / `QuietHandler` resolution
(`q2cli.handlers` is not among the sources) — the explicit flag when set,
else the fallback consulted under the flag's canonical name, defaulting to
off. -/
def flag_get_value (explicit : Bool) (nm : String) (fb : Fallback) : Bool :=
  if explicit then true else ((fb nm).map valueTruthy).getD false

/-- Modelled from the spec: `OutputDirHandler.get_value` (`q2cli.handlers`
is not among the sources) — resolve the output directory itself from the
explicit `--output-dir` flag, else from the supplied fallback under the
meta-handler's canonical name; return a provider deriving one path per
output name under that directory, and signalling absence when no directory
resolved. -/
def output_dir_get_value (explicitDir : Option String) (fb : Fallback) :
    Fallback :=
  fun nm =>
    match explicitDir with
    | some d => some (d ++ "/" ++ nm)
    | none =>
      match fb "output_dir" with
      | some d => some (d ++ "/" ++ nm)
      | none => none

/-- The composite fallback built in `ActionCommand.handle_out_params`: try
the command-config provider first; only when it signals absence, try the
output-directory provider. -/
def composite_fallback (cmd outp : Fallback) : Fallback :=
  fun nm =>
    match cmd nm with
    | some v => some v
    | none => outp nm

/-- One result object returned by the execution engine: a `type` label and
a `save` operation taking the resolved output location and returning the
final path written. -/
structure ResultObj where
  rtype : String
  save : String → String

/-- Outcome of the execution-engine call `action(**arguments)`: a raised
failure, or an ordered list of results. -/
inductive EngineResult where
  | raised
  | results (rs : List ResultObj)

/-- Environment of one `ActionCommand.__call__` invocation: the action's
signature, the behaviour of each generated handler (by entry name), the
already-resolved command-config fallback, the explicit `--output-dir`,
`--verbose` and `--quiet` flag values, the plugin name, the engine's
behaviour, and whether the temporary log file is still on the filesystem
when cleanup runs. -/
structure ActionEnv where
  pluginName : String
  signature : List SigEntry
  handlers : String → HandlerBehavior
  cmd_fallback : Fallback
  output_dir_explicit : Option String
  verbose_explicit : Bool
  quiet_explicit : Bool
  engine : List (String × String) → EngineResult
  logStillExists : Bool

/-- Resolution of one input/parameter entry in
`ActionCommand.handle_in_params`: its handler with the command-config
fallback. -/
def in_entry_value (env : ActionEnv) (nm : String) : Option String :=
  (env.handlers nm).resolve env.cmd_fallback

/-- The output-directory fallback of `ActionCommand.handle_out_params`:
`output_dir_handler.get_value(kwargs, fallback=cmd_fallback)`. -/
def out_fallback (env : ActionEnv) : Fallback :=
  output_dir_get_value env.output_dir_explicit env.cmd_fallback

/-- Resolution of one output entry in `ActionCommand.handle_out_params`:
its handler with the composite fallback (command-config first, then the
output-directory convention). -/
def out_entry_value (env : ActionEnv) (nm : String) : Option String :=
  (env.handlers nm).resolve (composite_fallback env.cmd_fallback (out_fallback env))

/-- The entry loop of `ActionCommand.handle_in_params`: for every entry of
type input or parameter, in signature order, resolve a value; a failing
handler contributes its recorded missing option names instead of aborting.
Returns the argument list and the collected missing names. -/
def handle_in_loop (env : ActionEnv) :
    List SigEntry → List (String × String) × List String
  | [] => ([], [])
  | item :: rest =>
    let tail := handle_in_loop env rest
    if item.type = EntryType.input ∨ item.type = EntryType.param then
      match in_entry_value env item.name with
      | some v => ((item.name, v) :: tail.1, tail.2)
      | none => (tail.1, (env.handlers item.name).missing ++ tail.2)
    else tail

/-- The entry loop of `ActionCommand.handle_out_params`: for every entry of
type output, in signature order, resolve a location with the composite
fallback; a failing handler contributes its recorded missing option names.
Returns the output locations and the collected missing names. -/
def handle_out_loop (env : ActionEnv) :
    List SigEntry → List String × List String
  | [] => ([], [])
  | item :: rest =>
    let tail := handle_out_loop env rest
    if item.type = EntryType.output then
      match out_entry_value env item.name with
      | some v => (v :: tail.1, tail.2)
      | none => (tail.1, (env.handlers item.name).missing ++ tail.2)
    else tail

/-! ## The `ActionCommand.__call__` invocation protocol -/

/-- One message printed to the error stream during `__call__`: the parent
context help text, a `Missing option: --name` line, the output-directory
guidance (`_OUTPUT_OPTION_ERR_MSG`), the verbose/quiet conflict message, or
the plugin-error header of the uniform error path. -/
inductive ErrLine where
  | helpParent
  | missingOption (nm : String)
  | outputGuidance
  | verboseQuietConflict
  | pluginError (pluginCliName : String)
deriving DecidableEq

/-- Terminal phase of one invocation: exit 1 at the verbose/quiet conflict,
exit 1 with missing options, the error-reporting path after an engine
failure (non-zero exit), or success (exit 0). -/
inductive CallPhase where
  | conflictExit
  | blockedExit
  | failedExit
  | succeeded
deriving DecidableEq

/-- The temporary log file created in non-verbose mode:
`tempfile.NamedTemporaryFile(prefix='qiime2-q2cli-err-', suffix='.log',
delete=False)` — a unique name and no auto-deletion. -/
structure LogFileSpec where
  namePfx : String
  nameSfx : String
  autoDelete : Bool
deriving DecidableEq

/-- Observables of one `ActionCommand.__call__` invocation: the terminal
phase, the error-stream and output-stream lines in order, whether the
execution engine was invoked, which input/parameter and output entries had
resolution attempted, the created log file (if any) and whether it was
deleted, and the paths results were saved to. -/
structure CallResult where
  phase : CallPhase
  stderr : List ErrLine
  stdout : List String
  engineInvoked : Bool
  attemptedIn : List String
  attemptedOut : List String
  log : Option LogFileSpec
  logDeleted : Bool
  savedPaths : List String
deriving DecidableEq

/-- The resolved verbose mode of an invocation
(`self.verbose_handler.get_value(kwargs, fallback=cmd_fallback)`). -/
def call_verbose (env : ActionEnv) : Bool :=
  flag_get_value env.verbose_explicit "verbose" env.cmd_fallback

/-- The resolved quiet mode of an invocation
(`self.quiet_handler.get_value(kwargs, fallback=cmd_fallback)`). -/
def call_quiet (env : ActionEnv) : Bool :=
  flag_get_value env.quiet_explicit "quiet" env.cmd_fallback

/-- The resolved input/parameter arguments of an invocation. -/
def call_arguments (env : ActionEnv) : List (String × String) :=
  (handle_in_loop env env.signature).1

/-- The missing input/parameter option names of an invocation. -/
def missing_in (env : ActionEnv) : List String :=
  (handle_in_loop env env.signature).2

/-- The resolved output locations of an invocation, in signature order. -/
def call_outputs (env : ActionEnv) : List String :=
  (handle_out_loop env env.signature).1

/-- The missing output option names of an invocation. -/
def missing_out (env : ActionEnv) : List String :=
  (handle_out_loop env env.signature).2

/-- The names of the input/parameter entries of the signature, in order. -/
def inParamNames (env : ActionEnv) : List String :=
  (env.signature.filter
    (fun e => e.type = EntryType.input ∨ e.type = EntryType.param)).map SigEntry.name

/-- The names of the output entries of the signature, in order. -/
def outNames (env : ActionEnv) : List String :=
  (env.signature.filter (fun e => e.type = EntryType.output)).map SigEntry.name

/-- The `Saved %s to: %s` confirmation line for one saved result. -/
def savedLine (rtype path : String) : String :=
  "Saved " ++ rtype ++ " to: " ++ path

/-- The body of `ActionCommand.__call__`.  Mirrors the source: resolve the
command-config fallback, resolve verbose and quiet against it and exit 1 on
a conflict before any entry resolution; otherwise resolve every
input/parameter entry and every output entry, and if anything is missing
print the parent-context help, one `Missing option` line per missing name
(inputs/parameters first, then outputs), the output-directory guidance
exactly when an output is missing, and exit 1 without invoking the engine.
Otherwise create the temporary log file unless verbose, invoke the engine:
on a raised failure report through the uniform error path (the log file is
retained); on success delete the log file (if created and still on the
filesystem), save each result to its output location in order, and print
one confirmation line per result unless quiet. -/
def action_call (env : ActionEnv) : CallResult :=
  let verbose := call_verbose env
  let quiet := call_quiet env
  if verbose && quiet then
    { phase := CallPhase.conflictExit
      stderr := [ErrLine.verboseQuietConflict]
      stdout := []
      engineInvoked := false
      attemptedIn := []
      attemptedOut := []
      log := none
      logDeleted := false
      savedPaths := [] }
  else
    let inRes := handle_in_loop env env.signature
    let outRes := handle_out_loop env env.signature
    if inRes.2 ≠ [] ∨ outRes.2 ≠ [] then
      { phase := CallPhase.blockedExit
        stderr := ErrLine.helpParent ::
          ((inRes.2 ++ outRes.2).map ErrLine.missingOption) ++
          (if outRes.2 = [] then [] else [ErrLine.outputGuidance])
        stdout := []
        engineInvoked := false
        attemptedIn := inParamNames env
        attemptedOut := outNames env
        log := none
        logDeleted := false
        savedPaths := [] }
    else
      let log := if verbose then none
        else some { namePfx := "qiime2-q2cli-err-", nameSfx := ".log",
                    autoDelete := false }
      match env.engine inRes.1 with
      | EngineResult.raised =>
        { phase := CallPhase.failedExit
          stderr := [ErrLine.pluginError (to_cli_name env.pluginName)]
          stdout := []
          engineInvoked := true
          attemptedIn := inParamNames env
          attemptedOut := outNames env
          log := log
          logDeleted := false
          savedPaths := [] }
      | EngineResult.results rs =>
        let pairs := rs.zip outRes.1
        let saved := pairs.map (fun p => (p.1.rtype, p.1.save p.2))
        { phase := CallPhase.succeeded
          stderr := []
          stdout := if quiet then [] else saved.map (fun p => savedLine p.1 p.2)
          engineInvoked := true
          attemptedIn := inParamNames env
          attemptedOut := outNames env
          log := log
          logDeleted := !verbose && env.logStillExists
          savedPaths := saved.map (fun p => p.2) }

/-- Whether the execution-engine call of an invocation returns normally. -/
def engineSucceeded (env : ActionEnv) : Bool :=
  match env.engine (call_arguments env) with
  | EngineResult.raised => false
  | EngineResult.results _ => true

/-! ## Concrete instances used by the witness theorems -/

/-- A concrete action: two inputs/parameters and two outputs. -/
def demoAction : ActionInfo :=
  { id := "align_seqs", name := "Align sequences", description := "Aligns."
    signature := [⟨"a", EntryType.input⟩, ⟨"b", EntryType.param⟩,
                  ⟨"o1", EntryType.output⟩, ⟨"o2", EntryType.output⟩] }

/-- A concrete plugin exposing `demoAction`. -/
def demoPlugin : PluginInfo :=
  { name := "alpha_plugin", actions := [("align_seqs", demoAction)] }

/-- Concrete engine results: two result objects. -/
def demoResults : List ResultObj :=
  [{ rtype := "TypeA", save := fun o => o },
   { rtype := "TypeB", save := fun o => o ++ ".qzv" }]

/-- Handlers following the spec-modelled resolution protocol: entry `a` has
an explicit command-line value, everything else defers to its fallback. -/
def demoHandlers : String → HandlerBehavior :=
  fun nm => ⟨spec_handler_resolve
    (if nm = "a" then some "a.qza" else none) nm, [nm]⟩

/-- A fully resolvable invocation environment: `b` supplied by the config
fallback, outputs derived from an explicit output directory, engine
succeeding with `demoResults`. -/
def demoEnvOk : ActionEnv :=
  { pluginName := "alpha_plugin"
    signature := demoAction.signature
    handlers := demoHandlers
    cmd_fallback := fun nm => if nm = "b" then some "7" else none
    output_dir_explicit := some "out"
    verbose_explicit := false
    quiet_explicit := false
    engine := fun _ => EngineResult.results demoResults
    logStillExists := true }

/-- An environment whose config fallback is empty and which has no output
directory: `b`, `o1` and `o2` all fail to resolve. -/
def demoEnvBlocked : ActionEnv :=
  { demoEnvOk with cmd_fallback := fun _ => none, output_dir_explicit := none }

/-- An environment with both `--verbose` and `--quiet` set. -/
def demoEnvConflict : ActionEnv :=
  { demoEnvOk with verbose_explicit := true, quiet_explicit := true }

/-- An environment with no explicit output directory whose config fallback
supplies only the output directory itself. -/
def demoOutEnv : ActionEnv :=
  { demoEnvOk with
    handlers := fun nm => ⟨spec_handler_resolve none nm, [nm]⟩
    cmd_fallback := fun nm => if nm = "output_dir" then some "cfgdir" else none
    output_dir_explicit := none }

/-- A raw argument vector containing one smart-dash token and one legacy
category token. -/
def demoArgv : List (List Char) :=
  [String.toList "qiime", String.toList "—verbose",
   String.toList "--m-subject-category"]

/-! ## Helper lemmas -/

/-- Every consecutive lookup on an already-populated (injected or
previously read) snapshot leaves the state unchanged and reads the cache
zero times. -/
theorem run_lookups_injected (cache ps : Plugins) (n : Nat) :
    run_lookups cache n ⟨some ps⟩ = (⟨some ps⟩, 0) := by
  induction n with
  | zero => rfl
  | succ n ih => simp [run_lookups, plugin_lookup, ih]

/-! ## Claim theorems -/

/-- Claim C7: for every known plugin, `PluginCommand.get_command` on an
action name absent from the action table reports an error carrying both the
plugin name and the attempted action name and exits with status 2, while a
known action name yields a freshly constructed
`ActionCommand(name, plugin, action)`. -/
theorem pluginGetCommand_dispatch (p : PluginInfo) (nm : String) :
    ((action_lookup p).lookup nm = none →
      plugin_get_command p nm = PluginGetCommand.exitTwo p.name nm ∧
      pluginGetExitCode (plugin_get_command p nm) = some 2) ∧
    (∀ a, (action_lookup p).lookup nm = some a →
      plugin_get_command p nm = PluginGetCommand.actionCmd nm p a ∧
      pluginGetExitCode (plugin_get_command p nm) = none) := by
  constructor
  · intro h
    simp [plugin_get_command, h, pluginGetExitCode]
  · intro a h
    simp [plugin_get_command, h, pluginGetExitCode]

/-- Witness for C7: requesting the unknown action `nope` of the demo plugin
exits with status 2 naming the plugin and the action. -/
theorem pluginGetCommand_dispatch_witness :
    plugin_get_command demoPlugin "nope" =
      PluginGetCommand.exitTwo "alpha_plugin" "nope" ∧
    pluginGetExitCode (plugin_get_command demoPlugin "nope") = some 2 :=
  (pluginGetCommand_dispatch demoPlugin "nope").1 (by decide)

/-- Claim C8: the plugin snapshot is read from the process-wide cache at
most once per `RootCommand`.  From an injected (or already-populated)
snapshot, any number of lookups reads the cache zero times, leaves the
snapshot untouched and serves the name map of that same snapshot; from an
empty state, `n` lookups read the cache exactly once when `n ≥ 1` and end
in the cached snapshot. -/
theorem plugin_lookup_memoized (cache ps : Plugins) (n : Nat) :
    run_lookups cache n ⟨some ps⟩ = (⟨some ps⟩, 0) ∧
    plugin_lookup cache ⟨some ps⟩ = (name_map ps, ⟨some ps⟩, false) ∧
    run_lookups cache n ⟨none⟩ =
      (if n = 0 then (⟨none⟩, 0) else (⟨some cache⟩, 1)) := by
  refine ⟨run_lookups_injected cache ps n, rfl, ?_⟩
  cases n with
  | zero => rfl
  | succ n =>
    simp [run_lookups, plugin_lookup, run_lookups_injected cache cache n]

/-- Claim C2: an output entry whose handler follows the spec-modelled
resolution protocol is resolved in the fixed order explicit command-line
value, then command-config provider, then output-directory convention; the
first provider to succeed wins. -/
theorem out_entry_composite_order (env : ActionEnv) (nm : String)
    (ex : Option String) (ms : List String)
    (h : env.handlers nm = ⟨spec_handler_resolve ex nm, ms⟩) :
    (∀ v, ex = some v → out_entry_value env nm = some v) ∧
    (ex = none → ∀ v, env.cmd_fallback nm = some v →
      out_entry_value env nm = some v) ∧
    (ex = none → env.cmd_fallback nm = none →
      out_entry_value env nm = out_fallback env nm) := by
  refine ⟨?_, ?_, ?_⟩
  · intro v hv
    simp [out_entry_value, h, spec_handler_resolve, hv]
  · intro hx v hv
    simp [out_entry_value, h, spec_handler_resolve, hx, composite_fallback, hv]
  · intro hx hv
    simp [out_entry_value, h, spec_handler_resolve, hx, composite_fallback, hv]

/-- Witness for C2: in the demo environment with no explicit value and an
empty config entry for `o1`, the output entry resolves through the
output-directory convention. -/
theorem out_entry_composite_order_witness :
    out_entry_value demoOutEnv "o1" = out_fallback demoOutEnv "o1" :=
  (out_entry_composite_order demoOutEnv "o1" none ["o1"] rfl).2.2 rfl (by decide)

/-- Claim C9: the output-directory meta-handler resolves its own value with
the command-config provider as fallback, so with no explicit
`--output-dir` the directory supplied by the config file is the one under
which output paths are derived. -/
theorem out_fallback_config_dir (env : ActionEnv) (nm d : String)
    (h1 : env.output_dir_explicit = none)
    (h2 : env.cmd_fallback "output_dir" = some d) :
    out_fallback env nm = some (d ++ "/" ++ nm) := by
  simp [out_fallback, output_dir_get_value, h1, h2]

/-- Witness for C9: the demo environment with no explicit output directory
derives the path of `o1` under the config-supplied directory. -/
theorem out_fallback_config_dir_witness :
    out_fallback demoOutEnv "o1" = some ("cfgdir" ++ "/" ++ "o1") :=
  out_fallback_config_dir demoOutEnv "o1" "cfgdir" rfl (by decide)

/-- Claim C4: when the verbose and the quiet handler both resolve true
(each after its own command-config fallback), `__call__` emits the conflict
error and exits with status 1 before any signature-entry resolution and
without invoking the execution engine. -/
theorem verbose_quiet_conflict (env : ActionEnv)
    (hv : call_verbose env = true) (hq : call_quiet env = true) :
    action_call env =
      { phase := CallPhase.conflictExit
        stderr := [ErrLine.verboseQuietConflict]
        stdout := []
        engineInvoked := false
        attemptedIn := []
        attemptedOut := []
        log := none
        logDeleted := false
        savedPaths := [] } := by
  simp [action_call, hv, hq]

/-- Witness for C4: the demo environment with both flags set exits at the
conflict with nothing resolved. -/
theorem verbose_quiet_conflict_witness :
    action_call demoEnvConflict =
      { phase := CallPhase.conflictExit
        stderr := [ErrLine.verboseQuietConflict]
        stdout := []
        engineInvoked := false
        attemptedIn := []
        attemptedOut := []
        log := none
        logDeleted := false
        savedPaths := [] } :=
  verbose_quiet_conflict demoEnvConflict (by decide) (by decide)

/-- Claim C3: any raw argument vector containing a token with a disallowed
punctuation character or a legacy `--m-<field>-category` token makes
`RootCommand.__init__` exit with status -1, reporting every offending token
of both kinds (with the `--m-<field>-column` suggestion for each legacy
token) and never reaching normal option parsing. -/
theorem root_init_reports_all (argv : List (List Char))
    (h : ∃ t ∈ argv, hasInvalidChar t = true ∨
      (category_fullmatch t).isSome = true) :
    root_init argv = RootInit.exitNeg (argv.filter hasInvalidChar)
      (argv.filterMap (fun tok => (category_fullmatch tok).map
        (fun f => (tok, columnSuggestion f)))) ∧
    rootInitExitCode (root_init argv) = some (-1) ∧
    root_init argv ≠ RootInit.proceed := by
  have hcond : argv.filter hasInvalidChar ≠ [] ∨
      argv.filterMap (fun tok => (category_fullmatch tok).map
        (fun f => (tok, columnSuggestion f))) ≠ [] := by
    obtain ⟨t, ht, hc⟩ := h
    rcases hc with hc | hc
    · exact Or.inl (List.ne_nil_of_mem (List.mem_filter.mpr ⟨ht, hc⟩))
    · obtain ⟨f, hf⟩ := Option.isSome_iff_exists.mp hc
      have hmem : (t, columnSuggestion f) ∈
          argv.filterMap (fun tok => (category_fullmatch tok).map
            (fun f => (tok, columnSuggestion f))) :=
        List.mem_filterMap.mpr ⟨t, ht, by rw [hf]; rfl⟩
      exact Or.inr (List.ne_nil_of_mem hmem)
  have hroot : root_init argv = RootInit.exitNeg (argv.filter hasInvalidChar)
      (argv.filterMap (fun tok => (category_fullmatch tok).map
        (fun f => (tok, columnSuggestion f)))) := by
    simp only [root_init]
    rw [if_pos hcond]
  refine ⟨hroot, ?_, ?_⟩
  · rw [hroot]
    rfl
  · rw [hroot]
    intro hcontra
    exact RootInit.noConfusion hcontra

/-- Witness for C3: an argument vector with a smart-dash token and a legacy
category token reports both (the legacy one with its `--column`
suggestion) and exits -1. -/
theorem root_init_reports_all_witness :
    root_init demoArgv = RootInit.exitNeg
      [String.toList "—verbose"]
      [(String.toList "--m-subject-category",
        String.toList "--m-subject-column")] ∧
    rootInitExitCode (root_init demoArgv) = some (-1) := by
  have h := root_init_reports_all demoArgv (by decide)
  refine ⟨?_, h.2.1⟩
  rw [h.1]
  decide

/-- Claim C10: the legacy-flag check matches only whole tokens — a token
triggers exactly when it decomposes as `--m-` ++ field ++ `-category` with
a nonempty whitespace-free field; the token `--m-col-category=val`, which
merely contains the pattern, is not detected and does not cause the -1
exit. -/
theorem category_fullmatch_whole_token :
    (∀ tok : List Char, (category_fullmatch tok).isSome = true ↔
      ∃ s, tok = categoryPfx ++ s ++ categorySfx ∧ s ≠ [] ∧
        s.all (fun c => !isPySpace c) = true) ∧
    category_fullmatch (String.toList "--m-col-category=val") = none ∧
    root_init [String.toList "--m-col-category=val"] = RootInit.proceed := by
  refine ⟨?_, by decide, by decide⟩
  intro tok
  constructor
  · intro h
    rw [category_fullmatch] at h
    split at h
    · rename_i hcond
      obtain ⟨hn, h4, h9⟩ := hcond
      split at h
      · rename_i hall
        refine ⟨(tok.drop 4).take (tok.length - 13), ?_, ?_, hall⟩
        · have e1 : tok = tok.take 4 ++ tok.drop 4 :=
            (List.take_append_drop 4 tok).symm
          have e2 : tok.drop 4 =
              (tok.drop 4).take (tok.length - 13) ++
              (tok.drop 4).drop (tok.length - 13) :=
            (List.take_append_drop (tok.length - 13) (tok.drop 4)).symm
          have e3 : (tok.drop 4).drop (tok.length - 13) =
              tok.drop (tok.length - 9) := by
            rw [List.drop_drop]
            congr 1
            omega
          calc tok = tok.take 4 ++ tok.drop 4 := e1
            _ = categoryPfx ++ ((tok.drop 4).take (tok.length - 13) ++
                  (tok.drop 4).drop (tok.length - 13)) := by rw [h4, ← e2]
            _ = categoryPfx ++ ((tok.drop 4).take (tok.length - 13) ++
                  categorySfx) := by rw [e3, h9]
            _ = categoryPfx ++ (tok.drop 4).take (tok.length - 13) ++
                  categorySfx := by rw [List.append_assoc]
        · have hlen : ((tok.drop 4).take (tok.length - 13)).length =
              tok.length - 13 := by
            rw [List.length_take, List.length_drop]
            omega
          intro hnil
          rw [hnil] at hlen
          simp at hlen
          omega
      · exact absurd h (by simp)
    · exact absurd h (by simp)
  · rintro ⟨s, rfl, hs, hall⟩
    have hsl : 1 ≤ s.length := List.length_pos.mpr hs
    have hplen : categoryPfx.length = 4 := by decide
    have hslen : categorySfx.length = 9 := by decide
    have hlen : (categoryPfx ++ s ++ categorySfx).length =
        4 + s.length + 9 := by
      simp [List.length_append, hplen, hslen]
      omega
    have h4 : (categoryPfx ++ s ++ categorySfx).take 4 = categoryPfx := by
      rw [List.append_assoc]
      exact List.take_left' hplen
    have h9 : (categoryPfx ++ s ++ categorySfx).drop
        ((categoryPfx ++ s ++ categorySfx).length - 9) = categorySfx := by
      rw [hlen]
      have : 4 + s.length + 9 - 9 = (categoryPfx ++ s).length := by
        rw [List.length_append, hplen]
        omega
      rw [this]
      exact List.drop_left (categoryPfx ++ s) categorySfx
    have hmid : ((categoryPfx ++ s ++ categorySfx).drop 4).take
        ((categoryPfx ++ s ++ categorySfx).length - 13) = s := by
      have hd : (categoryPfx ++ s ++ categorySfx).drop 4 =
          s ++ categorySfx := by
        rw [List.append_assoc]
        exact List.drop_left' hplen
      rw [hd, hlen]
      have : 4 + s.length + 9 - 13 = s.length := by omega
      rw [this]
      exact List.take_left s categorySfx
    rw [category_fullmatch]
    rw [if_pos ⟨by omega, h4, h9⟩]
    simp only [hmid, hall, if_pos]
    rfl

/-- The input/parameter loop attempts every input/parameter entry: its
collected missing names are the concatenation, in signature order, of the
recorded missing names of every failing input/parameter entry. -/
theorem handle_in_loop_missing_eq (env : ActionEnv) (sig : List SigEntry) :
    (handle_in_loop env sig).2 =
      (((sig.filter (fun e => e.type = EntryType.input ∨
          e.type = EntryType.param)).filter
        (fun e => (in_entry_value env e.name).isNone)).map
        (fun e => (env.handlers e.name).missing)).flatten := by
  induction sig with
  | nil => rfl
  | cons item rest ih =>
    by_cases hty : item.type = EntryType.input ∨ item.type = EntryType.param
    · cases hv : in_entry_value env item.name with
      | none => simp [handle_in_loop, hty, hv, ih, List.filter_cons]
      | some v => simp [handle_in_loop, hty, hv, ih, List.filter_cons]
    · simp [handle_in_loop, hty, ih, List.filter_cons]

/-- The output loop attempts every output entry: its collected missing
names are the concatenation, in signature order, of the recorded missing
names of every failing output entry. -/
theorem handle_out_loop_missing_eq (env : ActionEnv) (sig : List SigEntry) :
    (handle_out_loop env sig).2 =
      (((sig.filter (fun e => e.type = EntryType.output)).filter
        (fun e => (out_entry_value env e.name).isNone)).map
        (fun e => (env.handlers e.name).missing)).flatten := by
  induction sig with
  | nil => rfl
  | cons item rest ih =>
    by_cases hty : item.type = EntryType.output
    · cases hv : out_entry_value env item.name with
      | none => simp [handle_out_loop, hty, hv, ih, List.filter_cons]
      | some v => simp [handle_out_loop, hty, hv, ih, List.filter_cons]
    · simp [handle_out_loop, hty, ih, List.filter_cons]

/-- Claim C1: when any input/parameter or output entry fails to resolve
(and the invocation is not stopped earlier by a verbose/quiet conflict),
resolution is attempted for every entry, all missing names of both kinds
are collected, and `__call__` prints the parent-context help, one missing
line per name (inputs/parameters first, then outputs), the
output-directory guidance exactly when an output is missing, exits with
status 1, and never invokes the execution engine. -/
theorem call_blocked_reports_all (env : ActionEnv)
    (hnc : (call_verbose env && call_quiet env) = false)
    (hm : missing_in env ≠ [] ∨ missing_out env ≠ []) :
    action_call env =
      { phase := CallPhase.blockedExit
        stderr := ErrLine.helpParent ::
          ((missing_in env ++ missing_out env).map ErrLine.missingOption) ++
          (if missing_out env = [] then [] else [ErrLine.outputGuidance])
        stdout := []
        engineInvoked := false
        attemptedIn := inParamNames env
        attemptedOut := outNames env
        log := none
        logDeleted := false
        savedPaths := [] } ∧
    missing_in env =
      (((env.signature.filter (fun e => e.type = EntryType.input ∨
          e.type = EntryType.param)).filter
        (fun e => (in_entry_value env e.name).isNone)).map
        (fun e => (env.handlers e.name).missing)).flatten ∧
    missing_out env =
      (((env.signature.filter (fun e => e.type = EntryType.output)).filter
        (fun e => (out_entry_value env e.name).isNone)).map
        (fun e => (env.handlers e.name).missing)).flatten := by
  refine ⟨?_, handle_in_loop_missing_eq env env.signature,
    handle_out_loop_missing_eq env env.signature⟩
  rw [action_call]
  rw [show (call_verbose env && call_quiet env) = false from hnc]
  simp only [Bool.false_eq_true, if_false]
  rw [if_pos (show (handle_in_loop env env.signature).2 ≠ [] ∨
    (handle_out_loop env env.signature).2 ≠ [] from hm)]
  rfl

/-- Witness for C1: in the blocked demo environment, `b`, `o1` and `o2` all
fail, every missing name is reported after the help text, the guidance is
printed, and the engine is not invoked. -/
theorem call_blocked_reports_all_witness :
    action_call demoEnvBlocked =
      { phase := CallPhase.blockedExit
        stderr := [ErrLine.helpParent, ErrLine.missingOption "b",
          ErrLine.missingOption "o1", ErrLine.missingOption "o2",
          ErrLine.outputGuidance]
        stdout := []
        engineInvoked := false
        attemptedIn := ["a", "b"]
        attemptedOut := ["o1", "o2"]
        log := none
        logDeleted := false
        savedPaths := [] } := by
  rw [(call_blocked_reports_all demoEnvBlocked (by decide) (by decide)).1]
  decide

/-- Claim C5: on a successful engine call the results are paired with the
resolved output locations in signature order, each is saved, and unless
quiet one confirmation line per saved result is printed carrying the
result type and the destination path, in that same order. -/
theorem call_success_saves_in_order (env : ActionEnv) (rs : List ResultObj)
    (hnc : (call_verbose env && call_quiet env) = false)
    (hin : missing_in env = []) (hout : missing_out env = [])
    (heng : env.engine (call_arguments env) = EngineResult.results rs)
    (hlen : rs.length = (call_outputs env).length) :
    (action_call env).phase = CallPhase.succeeded ∧
    (action_call env).engineInvoked = true ∧
    (action_call env).savedPaths =
      (rs.zip (call_outputs env)).map (fun p => p.1.save p.2) ∧
    (action_call env).stdout = (if call_quiet env then [] else
      (rs.zip (call_outputs env)).map
        (fun p => savedLine p.1.rtype (p.1.save p.2))) ∧
    (call_quiet env = false → (action_call env).stdout.length = rs.length) := by
  have hcall : action_call env =
      { phase := CallPhase.succeeded
        stderr := []
        stdout := if call_quiet env then [] else
          (rs.zip (call_outputs env)).map
            (fun p => savedLine p.1.rtype (p.1.save p.2))
        engineInvoked := true
        attemptedIn := inParamNames env
        attemptedOut := outNames env
        log := if call_verbose env then none
          else some { namePfx := "qiime2-q2cli-err-", nameSfx := ".log",
                      autoDelete := false }
        logDeleted := !call_verbose env && env.logStillExists
        savedPaths := (rs.zip (call_outputs env)).map
          (fun p => p.1.save p.2) } := by
    rw [action_call]
    rw [show (call_verbose env && call_quiet env) = false from hnc]
    simp only [Bool.false_eq_true, if_false]
    rw [if_neg (by
      rw [not_or, not_ne_iff, not_ne_iff]
      exact ⟨hin, hout⟩)]
    rw [show env.engine (handle_in_loop env env.signature).1 =
      EngineResult.results rs from heng]
    simp only [List.map_map]
    rfl
  rw [hcall]
  refine ⟨rfl, rfl, rfl, rfl, ?_⟩
  intro hq
  rw [hq]
  simp only [Bool.false_eq_true, if_false, List.length_map, List.length_zip]
  omega

/-- Witness for C5: the successful demo invocation saves both results in
signature order and prints one confirmation line per result. -/
theorem call_success_saves_in_order_witness :
    (action_call demoEnvOk).phase = CallPhase.succeeded ∧
    (action_call demoEnvOk).engineInvoked = true ∧
    (action_call demoEnvOk).savedPaths =
      (demoResults.zip (call_outputs demoEnvOk)).map (fun p => p.1.save p.2) ∧
    (action_call demoEnvOk).stdout = (if call_quiet demoEnvOk then [] else
      (demoResults.zip (call_outputs demoEnvOk)).map
        (fun p => savedLine p.1.rtype (p.1.save p.2))) ∧
    (call_quiet demoEnvOk = false →
      (action_call demoEnvOk).stdout.length = demoResults.length) :=
  call_success_saves_in_order demoEnvOk demoResults (by decide) (by decide)
    (by decide) rfl (by decide)

/-- Claim C6: past resolution, a temporary log file (unique name, no
auto-deletion) is created exactly in non-verbose mode, and it is deleted
exactly when the engine call fully succeeded and the file is still on the
filesystem; after a raised failure it is left in place, and in verbose mode
no file is created. -/
theorem call_log_lifecycle (env : ActionEnv)
    (hnc : (call_verbose env && call_quiet env) = false)
    (hin : missing_in env = []) (hout : missing_out env = []) :
    (action_call env).log = (if call_verbose env then none
      else some { namePfx := "qiime2-q2cli-err-", nameSfx := ".log",
                  autoDelete := false }) ∧
    (action_call env).logDeleted =
      (!call_verbose env && engineSucceeded env && env.logStillExists) := by
  rw [action_call]
  rw [show (call_verbose env && call_quiet env) = false from hnc]
  simp only [Bool.false_eq_true, if_false]
  rw [if_neg (by
    rw [not_or, not_ne_iff, not_ne_iff]
    exact ⟨hin, hout⟩)]
  rw [engineSucceeded, call_arguments]
  cases henv : env.engine (handle_in_loop env env.signature).1 with
  | raised => simp
  | results rs => simp

/-- Witness for C6: the successful non-verbose demo invocation creates the
log file with no auto-deletion and deletes it afterwards. -/
theorem call_log_lifecycle_witness :
    (action_call demoEnvOk).log = (if call_verbose demoEnvOk then none
      else some { namePfx := "qiime2-q2cli-err-", nameSfx := ".log",
                  autoDelete := false }) ∧
    (action_call demoEnvOk).logDeleted =
      (!call_verbose demoEnvOk && engineSucceeded demoEnvOk &&
        demoEnvOk.logStillExists) :=
  call_log_lifecycle demoEnvOk (by decide) (by decide) (by decide)

end Q2cli
